import Mathlib

/-!
# Verification of the raysect core: spectral functions, glass material, 3D kd-tree

Shallow embedding of the repository's core modules:

* the spectral function hierarchy (`SampledSF`, `InterpolatedSF`, `ConstantSF`)
  from the spectral-function source file;
* the dielectric material `Glass` (`evaluate_surface`, `_fresnel`) from
  `raysect/optical/material/glass.pyx`;
* the 3D kd-tree (`KDTreeCore`: SAH build, hit traversal, point containment,
  pickling) from the kd-tree source file.

Numbers are embedded as `ℚ` (the source uses C doubles; all claims under
study are exact-arithmetic properties), C ints as `ℤ`/`ℕ`, fallible
constructors as `Except`.  External collaborators that are part of the wider
repository but absent from the provided sources (the bounding-box geometry,
the vector algebra, `libc` `sqrt` and the `interpolate`/`integrate` utility
functions) are either modelled from the specification (marked
`Modelled from the spec:`) or taken as explicit function parameters, so that
the theorems quantify over every implementation of those collaborators.
-/

/-! ## Python error model

The spectral constructors raise `ValueError` for invalid arguments.  One
branch of `SampledSF.__init__` executes `raise("...")` on a plain string,
which in Python 3 raises `TypeError: exceptions must derive from
BaseException` instead; the error type below keeps the two outcomes apart. -/

/-- The error outcomes of the embedded Python code: a `ValueError` carrying
its message, or the `TypeError` produced by `raise` applied to a non-exception
value (a plain string). -/
inductive PyErr where
  | valueError (msg : String)
  | typeError (msg : String)
deriving DecidableEq

/-! ## SampledSF -/

/-- `SampledSF`: regularly spaced samples of a spectral function
(fields of the `cdef class`; the `samples` numpy array is a rational list). -/
structure SampledSF where
  min_wavelength : ℚ
  max_wavelength : ℚ
  num_samples : ℤ
  delta_wavelength : ℚ
  fast_sample : Bool
  samples : List ℚ
deriving DecidableEq

/-- `SampledSF._construct`: store the range, derive
`delta_wavelength = (max - min) / num_samples`, and allocate `num_samples`
zero-initialised bins (`PyArray_SimpleNew` + `PyArray_FILLWBYTE(..., 0)`). -/
def SampledSF.construct (min_wavelength max_wavelength : ℚ) (num_samples : ℤ)
    (fast_sample : Bool) : SampledSF :=
  { min_wavelength := min_wavelength
    max_wavelength := max_wavelength
    num_samples := num_samples
    delta_wavelength := (max_wavelength - min_wavelength) / num_samples
    fast_sample := fast_sample
    samples := List.replicate num_samples.toNat 0 }

/-- `SampledSF.__init__`: validation then `_construct`.  The first check is
`raise("Number of samples cannot be less than 1.")` — `raise` applied to a
plain string, which Python 3 rejects with a `TypeError`; the remaining checks
raise genuine `ValueError`s. -/
def SampledSF.init (min_wavelength max_wavelength : ℚ) (num_samples : ℤ)
    (fast_sample : Bool) : Except PyErr SampledSF :=
  if num_samples < 1 then
    .error (.typeError "exceptions must derive from BaseException")
  else if min_wavelength ≤ 0 ∨ max_wavelength ≤ 0 then
    .error (.valueError "Wavelength cannot be less than or equal to zero.")
  else if min_wavelength ≥ max_wavelength then
    .error (.valueError "Minimum wavelength cannot be greater or equal to the maximum wavelength.")
  else
    .ok (SampledSF.construct min_wavelength max_wavelength num_samples fast_sample)

/-- `SampledSF.is_shaped`: the stored shape matches the requested range and
sample count. -/
def SampledSF.is_shaped (s : SampledSF) (min_wavelength max_wavelength : ℚ)
    (num_samples : ℤ) : Bool :=
  decide (s.min_wavelength = min_wavelength) &&
  decide (s.max_wavelength = max_wavelength) &&
  decide (s.num_samples = num_samples)

/-- `new_sampledsf`: the internal fast constructor — bypasses `__init__`
validation and always passes `fast_sample = False` to `_construct`. -/
def new_sampledsf (min_wavelength max_wavelength : ℚ) (num_samples : ℤ) : SampledSF :=
  SampledSF.construct min_wavelength max_wavelength num_samples false

/-- `SampledSF._populate_wavelengths`: the lazily created array of bin-centre
wavelengths `min + (0.5 + index) * delta`. -/
def SampledSF.wavelengths (s : SampledSF) : List ℚ :=
  (List.range s.num_samples.toNat).map
    (fun index => s.min_wavelength + ((1 : ℚ)/2 + index) * s.delta_wavelength)

/-- The `interpolate` / `integrate` helpers cimported from
`raysect.core.math.utility`.  They belong to the repository but are outside
the provided sources, so they are passed in as explicit parameters: every
theorem about the sampling code holds for an arbitrary implementation. -/
structure MathUtility where
  interpolate : List ℚ → List ℚ → ℚ → ℚ
  integrate : List ℚ → List ℚ → ℚ → ℚ → ℚ

/-- `SampledSF.sample_multiple`: the sanity check on the sample-array length
(the `None` check cannot arise in this embedding), the `is_shaped`
early return of `self`, then re-sampling into a `new_sampledsf` — bin-centre
interpolation in fast mode, bin averaging (running `lower_wavelength`
accumulator) otherwise. -/
def SampledSF.sample_multiple (u : MathUtility) (self : SampledSF)
    (min_wavelength max_wavelength : ℚ) (num_samples : ℤ) :
    Except PyErr SampledSF :=
  if (self.samples.length : ℤ) ≠ self.num_samples then
    .error (.valueError "Sample array length is inconsistent with num_samples.")
  else if self.is_shaped min_wavelength max_wavelength num_samples then
    .ok self
  else
    let s := new_sampledsf min_wavelength max_wavelength num_samples
    if self.fast_sample then
      .ok { s with samples :=
        (List.range num_samples.toNat).map (fun index =>
          u.interpolate self.wavelengths self.samples
            (min_wavelength + ((1 : ℚ)/2 + index) * s.delta_wavelength)) }
    else
      let reciprocal := 1 / s.delta_wavelength
      .ok { s with samples :=
        ((List.range num_samples.toNat).foldl (fun acc index =>
          let upper_wavelength := min_wavelength + ((index : ℚ) + 1) * s.delta_wavelength
          (acc.1 ++ [reciprocal *
            u.integrate self.wavelengths self.samples acc.2 upper_wavelength],
           upper_wavelength)) ([], min_wavelength)).1 }

/-! ## InterpolatedSF -/

/-- A numpy array as consumed by `InterpolatedSF`: a shape together with the
flattened data (only the shape takes part in the validation under study). -/
structure NpArray where
  shape : List ℕ
  data : List ℚ
deriving DecidableEq

/-- `ndim` of a numpy array. -/
def NpArray.ndim (a : NpArray) : ℕ := a.shape.length

/-- `shape[0]` of a numpy array. -/
def NpArray.shape0 (a : NpArray) : ℕ := a.shape.headD 0

/-- `InterpolatedSF`: irregularly spaced anchor wavelengths and samples with
a `fast_sample` flag. -/
structure InterpolatedSF where
  wavelengths : NpArray
  samples : NpArray
  fast_sample : Bool
deriving DecidableEq

/-- `InterpolatedSF.__init__`: stores the arrays, then rejects a non-1D
wavelength array and mismatched leading dimensions (note the source never
checks `samples.ndim`). -/
def InterpolatedSF.init (wavelengths samples : NpArray) (fast_sample : Bool) :
    Except PyErr InterpolatedSF :=
  if wavelengths.ndim ≠ 1 then
    .error (.valueError "Wavelength array must be 1D.")
  else if samples.shape0 ≠ wavelengths.shape0 then
    .error (.valueError "Wavelength and sample arrays must be the same length.")
  else
    .ok ⟨wavelengths, samples, fast_sample⟩

/-- `InterpolatedSF.sample_multiple`: the shape sanity check (the arrays are
user-mutable in the source), then sampling into a `new_sampledsf` — bin-centre
interpolation in fast mode, bin averaging otherwise. -/
def InterpolatedSF.sample_multiple (u : MathUtility) (self : InterpolatedSF)
    (min_wavelength max_wavelength : ℚ) (num_samples : ℤ) :
    Except PyErr SampledSF :=
  if self.samples.shape0 ≠ self.wavelengths.shape0 then
    .error (.valueError "Wavelength and sample arrays must be the same length.")
  else
    let s := new_sampledsf min_wavelength max_wavelength num_samples
    if self.fast_sample then
      .ok { s with samples :=
        (List.range num_samples.toNat).map (fun index =>
          u.interpolate self.wavelengths.data self.samples.data
            (min_wavelength + ((1 : ℚ)/2 + index) * s.delta_wavelength)) }
    else
      let reciprocal := 1 / s.delta_wavelength
      .ok { s with samples :=
        ((List.range num_samples.toNat).foldl (fun acc index =>
          let upper_wavelength := min_wavelength + ((index : ℚ) + 1) * s.delta_wavelength
          (acc.1 ++ [reciprocal *
            u.integrate self.wavelengths.data self.samples.data acc.2 upper_wavelength],
           upper_wavelength)) ([], min_wavelength)).1 }

/-! ## ConstantSF -/

/-- `ConstantSF`: a constant spectral function together with its one-slot
cache of the most recently produced `SampledSF`. -/
structure ConstantSF where
  value : ℚ
  cached_samples : Option SampledSF
deriving DecidableEq

/-- `ConstantSF.__init__`: store the value, empty cache. -/
def ConstantSF.init (value : ℚ) : ConstantSF := ⟨value, none⟩

/-- `ConstantSF.sample_multiple`: return the cached samples when they match
the requested shape; otherwise fill a fresh `new_sampledsf` with the constant
(`s_view[:] = self.value`) and update the cache.  The second component is the
post-call object state. -/
def ConstantSF.sample_multiple (self : ConstantSF)
    (min_wavelength max_wavelength : ℚ) (num_samples : ℤ) :
    SampledSF × ConstantSF :=
  let fresh :=
    { new_sampledsf min_wavelength max_wavelength num_samples with
      samples := List.replicate num_samples.toNat self.value }
  match self.cached_samples with
  | some cached =>
      if cached.is_shaped min_wavelength max_wavelength num_samples then
        (cached, self)
      else
        (fresh, { self with cached_samples := some fresh })
  | none => (fresh, { self with cached_samples := some fresh })

/-- The object state of a `ConstantSF` after a sequence of
`sample_multiple` calls starting from a freshly constructed object. -/
def ConstantSF.run (value : ℚ) (calls : List (ℚ × ℚ × ℤ)) : ConstantSF :=
  calls.foldl (fun st call => (st.sample_multiple call.1 call.2.1 call.2.2).2)
    (ConstantSF.init value)

/-! ## Glass material (`raysect/optical/material/glass.pyx`)

The vector algebra (`raysect.core.math.vector`), the affine transforms, the
`Ray` collaborator (`spawn_daughter`, `trace`, `new_spectrum`) and `libc`
`sqrt` are external to the provided sources; the specification lists the
operations they expose (`transform(matrix)`, `normalise()`, `dot(other)`).
They are collected in a `GlassEnv` parameter so that the theorems quantify
over every implementation. -/

/-- A 3D vector (also used for points) with rational components. -/
structure Vec3 where
  x : ℚ
  y : ℚ
  z : ℚ
deriving DecidableEq

/-- `Vector.dot`. Modelled from the spec: the linear-algebra layer is an
external collaborator exposing `dot(other)`. -/
def Vec3.dot (a b : Vec3) : ℚ := a.x * b.x + a.y * b.y + a.z * b.z

/-- `Vector.normalise`: divide by the length `sqrt(x² + y² + z²)`.
Modelled from the spec; `sqrtf` stands for the external square root. -/
def Vec3.normalise (sqrtf : ℚ → ℚ) (v : Vec3) : Vec3 :=
  let length := sqrtf (v.x * v.x + v.y * v.y + v.z * v.z)
  ⟨v.x / length, v.y / length, v.z / length⟩

/-- The external collaborators used by `Glass.evaluate_surface`:
`libc` square root, the local/world transforms applied to vectors and
points, the index `Function1D`, ray tracing (`spawn_daughter(o, d).trace(world)`
as a function of the spawn arguments) and `ray.new_spectrum()`. -/
structure GlassEnv where
  sqrtf : ℚ → ℚ
  transform_to_local : Vec3 → Vec3
  transform_to_world : Vec3 → Vec3
  point_to_world : Vec3 → Vec3
  index_eval : ℚ → ℚ
  trace : Vec3 → Vec3 → List ℚ
  new_spectrum : List ℚ

/-- `Spectrum.mul_scalar` (bin-wise scaling). -/
def mul_scalar (spectrum : List ℚ) (value : ℚ) : List ℚ :=
  spectrum.map (fun bin => bin * value)

/-- `Spectrum.add_array` (bin-wise addition of same-length arrays). -/
def add_array (spectrum bins : List ℚ) : List ℚ :=
  spectrum.zipWith (fun a b => a + b) bins

/-- The normalised incident vector `I` of `Glass.evaluate_surface`:
`ray.direction.transform(to_local).normalise()`. -/
def glass_incident (env : GlassEnv) (ray_direction : Vec3) : Vec3 :=
  (env.transform_to_local ray_direction).normalise env.sqrtf

/-- `c₁ = -N·I` with both vectors normalised. -/
def glass_c1 (env : GlassEnv) (ray_direction normal : Vec3) : ℚ :=
  -((normal.normalise env.sqrtf).dot (glass_incident env ray_direction))

/-- `(n₁, n₂)`: `(n(λ), 1)` when exiting, `(1, n(λ))` when entering. -/
def glass_n1n2 (env : GlassEnv) (refraction_wavelength : ℚ) (exiting : Bool) : ℚ × ℚ :=
  if exiting then (env.index_eval refraction_wavelength, 1)
  else (1, env.index_eval refraction_wavelength)

/-- `γ = n₁ / n₂`. -/
def glass_gamma (env : GlassEnv) (refraction_wavelength : ℚ) (exiting : Bool) : ℚ :=
  (glass_n1n2 env refraction_wavelength exiting).1 /
    (glass_n1n2 env refraction_wavelength exiting).2

/-- `c²_t = 1 - γ²(1 - c₁²)`, the squared cosine of the transmitted angle. -/
def glass_c2s (env : GlassEnv) (refraction_wavelength : ℚ) (exiting : Bool)
    (ray_direction normal : Vec3) : ℚ :=
  1 - (glass_gamma env refraction_wavelength exiting *
        glass_gamma env refraction_wavelength exiting) *
      (1 - glass_c1 env ray_direction normal * glass_c1 env ray_direction normal)

/-- `Glass._fresnel`: unpolarised Fresnel reflectivity and the transmission
defined as its complement. -/
def Glass.fresnel (ci ct n1 n2 : ℚ) : ℚ × ℚ :=
  let reflectivity := (1 : ℚ)/2 *
    (((n1 * ci - n2 * ct) / (n1 * ci + n2 * ct)) ^ 2 +
     ((n1 * ct - n2 * ci) / (n1 * ct + n2 * ci)) ^ 2)
  (reflectivity, 1 - reflectivity)

/-- `Glass.evaluate_surface`.  Returns the spectrum the method returns,
paired with the list of `(origin, direction)` arguments of every
`ray.spawn_daughter` call made, in call order (the instrumentation needed to
reason about which daughter rays are spawned). -/
def Glass.evaluate_surface (env : GlassEnv) (cutoff : ℚ)
    (ray_direction : Vec3) (refraction_wavelength : ℚ) (exiting : Bool)
    (inside_point outside_point : Vec3) (normal : Vec3) :
    List ℚ × List (Vec3 × Vec3) :=
  let incident := glass_incident env ray_direction
  let nrm := normal.normalise env.sqrtf
  let c1 := glass_c1 env ray_direction normal
  let n1 := (glass_n1n2 env refraction_wavelength exiting).1
  let n2 := (glass_n1n2 env refraction_wavelength exiting).2
  let gamma := glass_gamma env refraction_wavelength exiting
  let c2s := glass_c2s env refraction_wavelength exiting ray_direction normal
  if c2s ≤ 0 then
    -- total internal reflection
    let temp := 2 * c1
    let reflected : Vec3 :=
      ⟨incident.x + temp * nrm.x, incident.y + temp * nrm.y, incident.z + temp * nrm.z⟩
    let reflectedW := env.transform_to_world reflected
    let origin :=
      if exiting then env.point_to_world inside_point
      else env.point_to_world outside_point
    (env.trace origin reflectedW, [(origin, reflectedW)])
  else
    -- partial reflection and refraction
    let temp := 2 * c1
    let reflected : Vec3 :=
      ⟨incident.x + temp * nrm.x, incident.y + temp * nrm.y, incident.z + temp * nrm.z⟩
    let temp2 :=
      if exiting then gamma * c1 + env.sqrtf c2s else gamma * c1 - env.sqrtf c2s
    let transmitted : Vec3 :=
      ⟨gamma * incident.x + temp2 * nrm.x,
       gamma * incident.y + temp2 * nrm.y,
       gamma * incident.z + temp2 * nrm.z⟩
    let fr := Glass.fresnel c1 (-(nrm.dot transmitted)) n1 n2
    let reflectivity := fr.1
    let transmission := fr.2
    let reflectedW := env.transform_to_world reflected
    let transmittedW := env.transform_to_world transmitted
    let insideW := env.point_to_world inside_point
    let outsideW := env.point_to_world outside_point
    let reflected_ray := if exiting then (insideW, reflectedW) else (outsideW, reflectedW)
    let transmitted_ray := if exiting then (outsideW, transmittedW) else (insideW, transmittedW)
    let spectrum :=
      if reflectivity > cutoff then
        mul_scalar (env.trace reflected_ray.1 reflected_ray.2) reflectivity
      else env.new_spectrum
    let spectrum2 :=
      if transmission > cutoff then
        add_array spectrum (mul_scalar (env.trace transmitted_ray.1 transmitted_ray.2) transmission)
      else spectrum
    (spectrum2, [reflected_ray, transmitted_ray])

/-! ## 3D kd-tree (`KDTreeCore`)

The `BoundingBox` and `Point` collaborators live in
`raysect.core.acceleration.boundingbox` / `raysect.core.math`, outside the
provided sources; §4.4 of the specification lists exactly the operations the
kd-tree needs, and the definitions marked `Modelled from the spec:` implement
those words. -/

/-- A 3D point with rational coordinates. -/
structure Pt where
  x : ℚ
  y : ℚ
  z : ℚ
deriving DecidableEq

/-- `Point.get_index(axis)`: componentwise access.
Modelled from the spec: axis getters of the point layer. -/
def Pt.get (p : Pt) (axis : Fin 3) : ℚ :=
  if axis.val = 0 then p.x else if axis.val = 1 then p.y else p.z

/-- `Point.set_index(axis, value)`.
Modelled from the spec: axis setters of the point layer. -/
def Pt.set (p : Pt) (axis : Fin 3) (value : ℚ) : Pt :=
  if axis.val = 0 then ⟨value, p.y, p.z⟩
  else if axis.val = 1 then ⟨p.x, value, p.z⟩
  else ⟨p.x, p.y, value⟩

/-- An axis-aligned bounding box. -/
structure BBox where
  lower : Pt
  upper : Pt
deriving DecidableEq

/-- `BoundingBox.union(other)`: extend to include the other box.
Modelled from the spec: componentwise min of lower corners and max of upper
corners. -/
def BBox.union (a b : BBox) : BBox :=
  ⟨⟨min a.lower.x b.lower.x, min a.lower.y b.lower.y, min a.lower.z b.lower.z⟩,
   ⟨max a.upper.x b.upper.x, max a.upper.y b.upper.y, max a.upper.z b.upper.z⟩⟩

/-- `BoundingBox.surface_area()`.
Modelled from the spec: `2·(ΔxΔy + ΔyΔz + ΔzΔx)`. -/
def BBox.surface_area (b : BBox) : ℚ :=
  let dx := b.upper.x - b.lower.x
  let dy := b.upper.y - b.lower.y
  let dz := b.upper.z - b.lower.z
  2 * (dx * dy + dy * dz + dz * dx)

/-- `BoundingBox.largest_axis()`.
Modelled from the spec: the axis with the greatest extent, ties broken by the
lowest axis index. -/
def BBox.largest_axis (b : BBox) : Fin 3 :=
  let dx := b.upper.x - b.lower.x
  let dy := b.upper.y - b.lower.y
  let dz := b.upper.z - b.lower.z
  if dx ≥ dy ∧ dx ≥ dz then 0 else if dy ≥ dz then 1 else 2

/-- `BoundingBox.contains(point)`.
Modelled from the spec: inclusive on all faces. -/
def BBox.contains (b : BBox) (p : Pt) : Bool :=
  decide (b.lower.x ≤ p.x) && decide (p.x ≤ b.upper.x) &&
  decide (b.lower.y ≤ p.y) && decide (p.y ≤ b.upper.y) &&
  decide (b.lower.z ≤ p.z) && decide (p.z ≤ b.upper.z)

/-- `Item`: an id paired with the bounding box of the external object. -/
structure Item where
  id : ℤ
  box : BBox
deriving DecidableEq

/-- The overall tree bounds of `KDTreeCore.__init__`: a fresh (empty)
`BoundingBox` unioned with every item box.  Modelled from the spec: for a
non-empty item list this is the running union of the item boxes (the source's
fresh box is an empty sentinel absorbed by the first union); the degenerate
empty-tree case is pinned at the origin. -/
def tree_bounds (items : List Item) : BBox :=
  match items with
  | [] => ⟨⟨0, 0, 0⟩, ⟨0, 0, 0⟩⟩
  | item :: rest => rest.foldl (fun b it => b.union it.box) item.box

/-! ### Build: candidate edges -/

/-- The build-time `edge` struct: a lower or upper extent of an item box
projected onto the split axis. -/
structure Edge where
  is_upper_edge : Bool
  value : ℚ
deriving DecidableEq

/-- `_edge_compare`: the C comparator handed to `qsort`.  On equal values the
result depends only on the second edge's flag; otherwise values order the
edges. -/
def edge_compare (e1 e2 : Edge) : ℤ :=
  if e1.value = e2.value then
    if e2.is_upper_edge then -1 else 1
  else
    if e1.value < e2.value then -1 else 1

/-- Insert an edge before the first element it compares `≤ 0` against. -/
def insert_edge (e : Edge) : List Edge → List Edge
  | [] => [e]
  | x :: xs => if edge_compare e x ≤ 0 then e :: x :: xs else x :: insert_edge e xs

/-- Deterministic model of `qsort(edges, ..., _edge_compare)` as an insertion
sort driven by the comparator.  Whenever the comparator is consistent on the
input (which holds as soon as no two *same-kind* edges share a value; two
coincident same-kind edges are equal records, so reordering them does not
change the list), the result is the unique sorted arrangement that any
`qsort` would produce. -/
def sort_edges (edges : List Edge) : List Edge :=
  edges.foldr insert_edge []

/-- `_get_edges`: for each item, in item order, a lower edge at
`box.lower[axis]` followed by an upper edge at `box.upper[axis]`; the array
is then sorted with `_edge_compare`. -/
def get_edges (items : List Item) (axis : Fin 3) : List Edge :=
  sort_edges (items.foldr (fun item acc =>
    ⟨false, item.box.lower.get axis⟩ :: ⟨true, item.box.upper.get axis⟩ :: acc) [])

/-! ### Build: SAH split search -/

/-- `_get_lower_bounds`: the lower half of a box split at `split` along
`axis`. -/
def get_lower_bounds (bounds : BBox) (split : ℚ) (axis : Fin 3) : BBox :=
  ⟨bounds.lower, bounds.upper.set axis split⟩

/-- `_get_upper_bounds`: the upper half of a box split at `split` along
`axis`. -/
def get_upper_bounds (bounds : BBox) (split : ℚ) (axis : Fin 3) : BBox :=
  ⟨bounds.lower.set axis split, bounds.upper⟩

/-- The running state of the `_split` edge sweep: item counts either side,
the best cost so far and the best `(axis, split)` when one beat the leaf
cost. -/
structure ScanState where
  lower_count : ℤ
  upper_count : ℤ
  best_cost : ℚ
  best : Option (Fin 3 × ℚ)

/-- One axis sweep of `_split`: walk the sorted edges, decrementing
`upper_count` on an upper edge *before* the cost test and incrementing
`lower_count` on a lower edge *after* it; only positions strictly inside the
node bounds are candidate splits; SAH cost
`1 + bonus·(A_lo·n_lo + A_hi·n_hi)·(1/A)·hit_cost` with the empty bonus when
either side is empty; strict improvement replaces the stored best. -/
def scan_edges (hit_cost empty_bonus : ℚ) (bounds : BBox) (axis : Fin 3)
    (recip_total_sa : ℚ) : List Edge → ScanState → ScanState
  | [], st => st
  | e :: rest, st =>
      let uc := if e.is_upper_edge then st.upper_count - 1 else st.upper_count
      let st1 :=
        if bounds.lower.get axis < e.value ∧ e.value < bounds.upper.get axis then
          let lower_sa := (get_lower_bounds bounds e.value axis).surface_area
          let upper_sa := (get_upper_bounds bounds e.value axis).surface_area
          let bonus : ℚ :=
            if st.lower_count = 0 ∨ uc = 0 then 1 - empty_bonus else 1
          let cost := 1 + bonus * (lower_sa * st.lower_count + upper_sa * uc) *
            recip_total_sa * hit_cost
          if cost < st.best_cost then
            { lower_count := st.lower_count, upper_count := uc,
              best_cost := cost, best := some (axis, e.value) }
          else
            { st with upper_count := uc }
        else
          { st with upper_count := uc }
      let st2 :=
        if e.is_upper_edge then st1
        else { st1 with lower_count := st1.lower_count + 1 }
      scan_edges hit_cost empty_bonus bounds axis recip_total_sa rest st2

/-- A split solution as returned by `_split`. -/
structure SplitSol where
  axis : Fin 3
  split : ℚ
  lower_items : List Item
  lower_bounds : BBox
  upper_items : List Item
  upper_bounds : BBox
deriving DecidableEq

/-- `_split`: try the axes in order
`[longest, (longest+1) % 3, (longest+2) % 3]`, keeping the leaf cost
`|items|·hit_cost` as the initial best and stopping at the first axis whose
sweep found an improving split; on success partition the items into the two
(possibly overlapping) child lists — lower when `box.lower[axis] < split`,
upper when `box.upper[axis] > split` — and derive the child bounds. -/
def kdsplit (hit_cost empty_bonus : ℚ) (items : List Item) (bounds : BBox) :
    Option SplitSol :=
  let longest_axis := bounds.largest_axis
  let axes : List (Fin 3) := [longest_axis, longest_axis + 1, longest_axis + 2]
  let recip_total_sa := 1 / bounds.surface_area
  let leaf_cost : ℚ := (items.length : ℚ) * hit_cost
  let result := axes.foldl (fun acc axis =>
    if acc.2.isSome then acc
    else
      let st := scan_edges hit_cost empty_bonus bounds axis recip_total_sa
        (get_edges items axis)
        ⟨0, (items.length : ℤ), acc.1, none⟩
      (st.best_cost, st.best)) (leaf_cost, none)
  match result.2 with
  | none => none
  | some (best_axis, best_split) =>
      some { axis := best_axis
             split := best_split
             lower_items := items.filter (fun it => it.box.lower.get best_axis < best_split)
             lower_bounds := get_lower_bounds bounds best_split best_axis
             upper_items := items.filter (fun it => it.box.upper.get best_axis > best_split)
             upper_bounds := get_upper_bounds bounds best_split best_axis }

/-! ### Build: node array -/

/-- A node of the packed node array: a leaf owning its item ids, or a branch
whose tag is the split axis (the source stores the axis index 0/1/2 in
`type`, `LEAF = -1`), with the split position and the index of the upper
child (`count` reused); the lower child is implicitly `id + 1`. -/
inductive KDNode where
  | leaf (items : List ℤ)
  | branch (axis : Fin 3) (split : ℚ) (upper_id : ℕ)
deriving DecidableEq

/-- `_new_leaf`: append a leaf node holding the ids of the given items and
return its index. -/
def new_leaf (items : List Item) (nodes : List KDNode) : ℕ × List KDNode :=
  (nodes.length, nodes ++ [KDNode.leaf (items.map (fun it => it.id))])

/-- `_build` (with `_new_branch` and `_new_node` inlined): make a leaf when
the depth budget is exhausted or few enough items remain or no split was
found; otherwise reserve the branch slot, build the lower child (always the
next index), build the upper child, and only then fill the branch record —
the fuel argument is `max_depth - depth`, so `fuel = 0` is the
`depth == max_depth` test. -/
def build_aux (hit_cost empty_bonus : ℚ) (min_items : ℕ) :
    ℕ → List Item → BBox → List KDNode → ℕ × List KDNode
  | 0, items, _, nodes => new_leaf items nodes
  | fuel + 1, items, bounds, nodes =>
      if items.length ≤ min_items then new_leaf items nodes
      else
        match kdsplit hit_cost empty_bonus items bounds with
        | none => new_leaf items nodes
        | some sol =>
            let id := nodes.length
            let nodes1 := nodes ++ [KDNode.leaf []]
            let nodes2 :=
              (build_aux hit_cost empty_bonus min_items fuel
                sol.lower_items sol.lower_bounds nodes1).2
            let result :=
              build_aux hit_cost empty_bonus min_items fuel
                sol.upper_items sol.upper_bounds nodes2
            (id, result.2.set id (KDNode.branch sol.axis sol.split result.1))

/-- The state of a built `KDTreeCore`: overall bounds, the node array and the
(already clamped / derived) build settings. -/
structure KDTreeState where
  bounds : BBox
  nodes : List KDNode
  max_depth : ℕ
  min_items : ℕ
  hit_cost : ℚ
  empty_bonus : ℚ
deriving DecidableEq

/-- `KDTreeCore.__init__` after parameter clamping / automatic depth
derivation: compute the overall bounds and run the recursive build from the
root. -/
def build_tree (items : List Item) (max_depth min_items : ℕ)
    (hit_cost empty_bonus : ℚ) : KDTreeState :=
  let bounds := tree_bounds items
  { bounds := bounds
    nodes := (build_aux hit_cost empty_bonus min_items max_depth items bounds []).2
    max_depth := max_depth
    min_items := min_items
    hit_cost := hit_cost
    empty_bonus := empty_bonus }

/-! ### Serialisation (`__getstate__` / `__setstate__`) -/

/-- An encoded node of the pickled state: `(type, data)` where a leaf is
`(LEAF = -1, [item ids])` and a branch is `(axis, (split, upper_id))`. -/
abbrev EncNode := ℤ × (List ℤ ⊕ ℚ × ℤ)

/-- `__getstate__`, per node: a leaf encodes its type and item list; a branch
encodes its type (the axis) and `(split, count)`. -/
def encode_node : KDNode → EncNode
  | .leaf items => (-1, Sum.inl items)
  | .branch axis split upper_id => ((axis.val : ℤ), Sum.inr (split, (upper_id : ℤ)))

/-- `__setstate__`, per node: a `type == LEAF` entry is rebuilt through
`_new_leaf` from `Item(id, None)` wrappers (recovering exactly the id list);
any other entry has its axis tag, split and upper-child index written
directly.  The node-array invariant (branch tags equal the axis index 0/1/2,
child indices are non-negative) keeps the decoded data representable as a
`KDNode`; entries outside it are rejected. -/
def decode_node : EncNode → Option KDNode
  | (t, Sum.inl items) => if t = -1 then some (KDNode.leaf items) else none
  | (t, Sum.inr (split, upper_id)) =>
      if t = 0 then some (KDNode.branch 0 split upper_id.toNat)
      else if t = 1 then some (KDNode.branch 1 split upper_id.toNat)
      else if t = 2 then some (KDNode.branch 2 split upper_id.toNat)
      else none

/-- Decode a node sequence in order (the `for node in nodes` loop of
`__setstate__`, which appends each decoded node to the freshly reset array). -/
def decode_nodes : List EncNode → Option (List KDNode)
  | [] => some []
  | e :: rest =>
      match decode_node e, decode_nodes rest with
      | some n, some ns => some (n :: ns)
      | _, _ => none

/-- `KDTreeCore.__getstate__`: `(bounds, nodes, settings)` with the settings
tuple `(_max_depth, _min_items, _hit_cost, _empty_bonus)`. -/
def kdtree_getstate (t : KDTreeState) :
    BBox × List EncNode × (ℤ × ℤ × ℚ × ℚ) :=
  (t.bounds, t.nodes.map encode_node,
    ((t.max_depth : ℤ), (t.min_items : ℤ), t.hit_cost, t.empty_bonus))

/-- `KDTreeCore.__setstate__`: reset, rebuild the node array in order from
the encoded sequence, then restore the settings. -/
def kdtree_setstate (state : BBox × List EncNode × (ℤ × ℤ × ℚ × ℚ)) :
    Option KDTreeState :=
  match decode_nodes state.2.1 with
  | none => none
  | some nodes =>
      some { bounds := state.1
             nodes := nodes
             max_depth := state.2.2.1.toNat
             min_items := state.2.2.2.1.toNat
             hit_cost := state.2.2.2.2.1
             empty_bonus := state.2.2.2.2.2 }

/-! ### Ray-box entry (`BoundingBox.full_intersection`) -/

/-- A ray: origin and direction. -/
structure Ray3 where
  origin : Pt
  direction : Pt
deriving DecidableEq

/-- One slab of the ray/box intersection.  Modelled from the spec: the slab
method; an axis with zero direction component rejects the ray when the origin
lies outside that slab and otherwise leaves the running `(front, back)`
interval (`none` components standing for the initial ∓∞) untouched. -/
def slab (origin dir lo hi : ℚ) :
    Option (Option ℚ × Option ℚ) → Option (Option ℚ × Option ℚ)
  | none => none
  | some (front, back) =>
      if dir = 0 then
        if origin < lo ∨ hi < origin then none else some (front, back)
      else
        let t1 := (lo - origin) / dir
        let t2 := (hi - origin) / dir
        let tmin := min t1 t2
        let tmax := max t1 t2
        some (some (match front with | none => tmin | some f => max f tmin),
              some (match back with | none => tmax | some b => min b tmax))

/-- `BoundingBox.full_intersection(ray)`.  Modelled from the spec: intersect
the three slabs; a hit needs `front ≤ back` and `back ≥ 0` and returns the
entry and exit distances.  A ray whose direction is the zero vector (all
three components zero, leaving both ends unbounded) is treated as a miss. -/
def full_intersection (box : BBox) (ray : Ray3) : Option (ℚ × ℚ) :=
  match slab ray.origin.z ray.direction.z box.lower.z box.upper.z
        (slab ray.origin.y ray.direction.y box.lower.y box.upper.y
          (slab ray.origin.x ray.direction.x box.lower.x box.upper.x
            (some (none, none)))) with
  | none => none
  | some (front, back) =>
      match front, back with
      | some f, some b => if f > b ∨ b < 0 then none else some (f, b)
      | _, _ => none

/-! ### Hit traversal -/

/-- The leaf item-id list at a node index (the array `_hit_leaf` /
`_contains_leaf` hooks read; empty off a leaf). -/
def leaf_ids (nodes : List KDNode) (id : ℕ) : List ℤ :=
  match nodes.get? id with
  | some (.leaf items) => items
  | _ => []

/-- `_hit_node` / `_hit_branch` with the virtual `_hit_leaf` hook abstracted
as `H : node id → max_range → Bool` (the ray is fixed): dispatch on the node
type; at a branch pick near/far from the origin side of the split plane,
handle the parallel and single-child cases, and otherwise search the near
child over `[min_range, plane_distance]` first, falling back to the far child
over `[plane_distance, max_range]`.  The fuel argument bounds the recursion
depth (the C recursion has no such bound; every built tree terminates because
child indices strictly increase); `none` reports fuel exhaustion or an index
outside the node array and never arises on a built tree with adequate fuel. -/
def hit_node (H : ℕ → ℚ → Bool) (ray : Ray3) (nodes : List KDNode) :
    ℕ → ℕ → ℚ → ℚ → Option Bool
  | 0, _, _, _ => none
  | fuel + 1, id, min_range, max_range =>
      match nodes.get? id with
      | none => none
      | some (.leaf _) => some (H id max_range)
      | some (.branch axis split upper_id) =>
          let lower_id := id + 1
          let origin := ray.origin.get axis
          let direction := ray.direction.get axis
          if direction = 0 then
            if origin < split then
              hit_node H ray nodes fuel lower_id min_range max_range
            else
              hit_node H ray nodes fuel upper_id min_range max_range
          else
            let plane_distance := (split - origin) / direction
            let below_split := origin < split ∨ (origin = split ∧ direction < 0)
            let near_id := if below_split then lower_id else upper_id
            let far_id := if below_split then upper_id else lower_id
            if max_range < plane_distance ∨ plane_distance ≤ 0 then
              hit_node H ray nodes fuel near_id min_range max_range
            else if plane_distance < min_range then
              hit_node H ray nodes fuel far_id min_range max_range
            else
              match hit_node H ray nodes fuel near_id min_range plane_distance with
              | none => none
              | some true => some true
              | some false => hit_node H ray nodes fuel far_id plane_distance max_range

/-- `KDTreeCore._hit`: check the tree bounds, then explore from the root over
the slab entry/exit range.  (On a bounds miss the source executes
`return None` inside a `cdef bint` method, which the caller observes as a
falsy result; the model returns `false`.) -/
def tree_hit (H : ℕ → ℚ → Bool) (t : KDTreeState) (ray : Ray3) : Option Bool :=
  match full_intersection t.bounds ray with
  | none => some false
  | some (min_range, max_range) =>
      hit_node H ray t.nodes (t.nodes.length + 1) 0 min_range max_range

/-- One leaf visit of the traversal: the leaf's node index and the
`[min_range, max_range]` interval it is searched over. -/
structure Visit where
  id : ℕ
  tmin : ℚ
  tmax : ℚ
deriving DecidableEq

/-- The ordered sequence of leaf visits `_hit_node` performs when no leaf
reports a hit — the same recursion as `hit_node` with the early exit removed
(both children contribute their visit lists in near-then-far order). -/
def visit_seq (ray : Ray3) (nodes : List KDNode) :
    ℕ → ℕ → ℚ → ℚ → Option (List Visit)
  | 0, _, _, _ => none
  | fuel + 1, id, min_range, max_range =>
      match nodes.get? id with
      | none => none
      | some (.leaf _) => some [⟨id, min_range, max_range⟩]
      | some (.branch axis split upper_id) =>
          let lower_id := id + 1
          let origin := ray.origin.get axis
          let direction := ray.direction.get axis
          if direction = 0 then
            if origin < split then
              visit_seq ray nodes fuel lower_id min_range max_range
            else
              visit_seq ray nodes fuel upper_id min_range max_range
          else
            let plane_distance := (split - origin) / direction
            let below_split := origin < split ∨ (origin = split ∧ direction < 0)
            let near_id := if below_split then lower_id else upper_id
            let far_id := if below_split then upper_id else lower_id
            if max_range < plane_distance ∨ plane_distance ≤ 0 then
              visit_seq ray nodes fuel near_id min_range max_range
            else if plane_distance < min_range then
              visit_seq ray nodes fuel far_id min_range max_range
            else
              match visit_seq ray nodes fuel near_id min_range plane_distance,
                    visit_seq ray nodes fuel far_id plane_distance max_range with
              | some near_visits, some far_visits => some (near_visits ++ far_visits)
              | _, _ => none

/-- The prefix of the visit sequence on which `_hit_leaf` is actually
invoked: every visit up to and including the first one whose hook reports a
hit. -/
def invoked_leaves (H : ℕ → ℚ → Bool) : List Visit → List Visit
  | [] => []
  | v :: rest => if H v.id v.tmax then [v] else v :: invoked_leaves H rest

/-! ### Point containment -/

/-- `_contains_node` / `_contains_branch` with the virtual `_contains_leaf`
hook abstracted as `CL : node id → point → List ℤ`: descend into the lower
child when `point[axis] < split`, the upper child otherwise, and apply the
hook at the reached leaf.  Fuel as in `hit_node`. -/
def contains_node (CL : ℕ → Pt → List ℤ) (nodes : List KDNode) :
    ℕ → ℕ → Pt → Option (List ℤ)
  | 0, _, _ => none
  | fuel + 1, id, point =>
      match nodes.get? id with
      | none => none
      | some (.leaf _) => some (CL id point)
      | some (.branch axis split upper_id) =>
          if point.get axis < split then
            contains_node CL nodes fuel (id + 1) point
          else
            contains_node CL nodes fuel upper_id point

/-- `KDTreeCore._contains`: return `[]` when the point lies outside the tree
bounds; otherwise the source *evaluates* `self._contains_node(ROOT_NODE,
point)` but omits the `return`, so the `cdef list` method falls off the end
and the caller receives `None` — the descent result is discarded. -/
def tree_contains (CL : ℕ → Pt → List ℤ) (t : KDTreeState) (point : Pt) :
    Option (List ℤ) :=
  if ¬ t.bounds.contains point then some []
  else
    match contains_node CL t.nodes (t.nodes.length + 1) 0 point with
    | _ => none

/-- The `_contains_leaf` hook of the natural subclass: filter the leaf's item
ids down to those whose box contains the point (the id-to-box map is taken
from the item list the tree was built over). -/
def box_hook (items : List Item) (nodes : List KDNode) (id : ℕ) (point : Pt) :
    List ℤ :=
  (leaf_ids nodes id).filter (fun item_id =>
    match items.find? (fun it => it.id = item_id) with
    | some it => it.box.contains point
    | none => false)

/-! ## Statement helpers and concrete instances -/

/-- The visit intervals tile a range in order: the first visit starts at the
left end, each visit starts where the previous one stopped, and the last one
stops at the right end. -/
def Chain : ℚ → List Visit → ℚ → Prop
  | m, [], M => m = M
  | m, v :: vs, M => v.tmin = m ∧ Chain v.tmax vs M

/-- The invariant maintained by `ConstantSF`: the stored value is the
construction value, and the cache — when occupied — holds a `SampledSF` whose
bins are all that value and whose `fast_sample` flag is `False`. -/
def ConstantSF.good (value : ℚ) (c : ConstantSF) : Prop :=
  c.value = value ∧ ∀ s, c.cached_samples = some s →
    s.samples = List.replicate s.num_samples.toNat value ∧ s.fast_sample = false

/-- The reflected direction `I + 2·c₁·N` of `Glass.evaluate_surface` in the
local frame (`temp = 2·c₁` applied componentwise, as in the source). -/
def glass_reflected (env : GlassEnv) (ray_direction normal : Vec3) : Vec3 :=
  ⟨(glass_incident env ray_direction).x +
      2 * glass_c1 env ray_direction normal * (normal.normalise env.sqrtf).x,
   (glass_incident env ray_direction).y +
      2 * glass_c1 env ray_direction normal * (normal.normalise env.sqrtf).y,
   (glass_incident env ray_direction).z +
      2 * glass_c1 env ray_direction normal * (normal.normalise env.sqrtf).z⟩

/-- The origin of the daughter ray spawned on total internal reflection:
`inside_point` when exiting, `outside_point` otherwise, transformed to world
space. -/
def glass_tir_origin (env : GlassEnv) (exiting : Bool)
    (inside_point outside_point : Vec3) : Vec3 :=
  if exiting then env.point_to_world inside_point
  else env.point_to_world outside_point

/-- A concrete environment for evaluating the glass model: identity
transforms, a unit square root stub (the witnesses only normalise unit
vectors), a constant index `n = 3/2`, and a trace that records the spawn
arguments in a one-bin spectrum. -/
def tir_env : GlassEnv :=
  { sqrtf := fun _ => 1
    transform_to_local := id
    transform_to_world := id
    point_to_world := id
    index_eval := fun _ => 3/2
    trace := fun origin direction => [origin.x + direction.x]
    new_spectrum := [0] }

/-- A trivial utility implementation (all interpolations and integrals
zero), used to instantiate the utility-parametric sampling theorems. -/
def zero_utility : MathUtility :=
  { interpolate := fun _ _ _ => 0
    integrate := fun _ _ _ _ => 0 }

/-- A concrete `InterpolatedSF` with `fast_sample = True`. -/
def fast_interpolated : InterpolatedSF :=
  ⟨⟨[2], [1, 2]⟩, ⟨[2], [3, 4]⟩, true⟩

/-- A concrete `SampledSF` with `fast_sample = True` and two bins. -/
def fast_sampled : SampledSF := ⟨100, 200, 2, 50, true, [1, 2]⟩

/-- The three unit-cube items of the spec's kd-tree scenario:
boxes `[(0,0,0)-(1,1,1)]`, `[(2,0,0)-(3,1,1)]`, `[(4,0,0)-(5,1,1)]`. -/
def three_items : List Item :=
  [⟨0, ⟨⟨0, 0, 0⟩, ⟨1, 1, 1⟩⟩⟩, ⟨1, ⟨⟨2, 0, 0⟩, ⟨3, 1, 1⟩⟩⟩,
   ⟨2, ⟨⟨4, 0, 0⟩, ⟨5, 1, 1⟩⟩⟩]

/-- The three-box tree built with the default parameters: `min_items = 1`,
`hit_cost = 20`, `empty_bonus = 0.2`, and the automatically derived
`max_depth = ⌈8 + 1.3·ln 3⌉ = 10` (see `auto_max_depth_three`). -/
def three_tree : KDTreeState := build_tree three_items 10 1 20 (1/5)

/-- The box-containment `_contains_leaf` hook over the three items. -/
def three_hook : ℕ → Pt → List ℤ := box_hook three_items three_tree.nodes

/-- Two items whose boxes straddle differently: item 0 spans `x ∈ [0, 10]`,
item 1 spans `x ∈ [4, 6]` (both unit-square in y/z). -/
def straddle_items : List Item :=
  [⟨0, ⟨⟨0, 0, 0⟩, ⟨10, 1, 1⟩⟩⟩, ⟨1, ⟨⟨4, 0, 0⟩, ⟨6, 1, 1⟩⟩⟩]

/-- The tree over `straddle_items` with the default parameters
(`max_depth = ⌈8 + 1.3·ln 2⌉ = 9`, see `auto_max_depth_two`). -/
def straddle_tree : KDTreeState := build_tree straddle_items 9 1 20 (1/5)

/-- A ray along `+x` through the middle of the straddle boxes. -/
def straddle_ray : Ray3 := ⟨⟨-1, 1/2, 1/2⟩, ⟨1, 0, 0⟩⟩

/-- The parametric intersection distances of the two straddle items along
`straddle_ray`: the big box's surface is hit at `t = 10`, the small one at
`t = 6` (abstract per-item distances; the kd-tree never inspects them). -/
def straddle_dist : ℤ → ℚ := fun i => if i = 0 then 10 else 6

/-- A `_hit_leaf` hook that reports exactly the hits within the given range:
true iff some item of the leaf intersects at a distance in `[0, max_range]`. -/
def straddle_hook : ℕ → ℚ → Bool := fun id max_range =>
  (leaf_ids straddle_tree.nodes id).any (fun i =>
    decide (0 ≤ straddle_dist i ∧ straddle_dist i ≤ max_range))

/-- The leaf visits of `straddle_ray` through `straddle_tree`. -/
def straddle_visits : List Visit := [⟨1, 1, 5⟩, ⟨3, 5, 7⟩, ⟨4, 7, 11⟩]

/-- Two items with a coincident upper/lower edge pair at `x = 5`. -/
def coincident_items : List Item :=
  [⟨0, ⟨⟨1, 0, 0⟩, ⟨5, 1, 1⟩⟩⟩, ⟨1, ⟨⟨5, 0, 0⟩, ⟨9, 1, 1⟩⟩⟩]

/-! ## Helper lemmas -/

theorem chain_append {vs1 vs2 : List Visit} :
    ∀ {m t M : ℚ}, Chain m vs1 t → Chain t vs2 M → Chain m (vs1 ++ vs2) M := by
  induction vs1 with
  | nil => intro m t M h1 h2; cases h1; simpa using h2
  | cons v rest ih =>
      intro m t M h1 h2
      exact ⟨h1.1, ih h1.2 h2⟩

theorem chain_le {vs : List Visit} :
    ∀ {m M : ℚ}, Chain m vs M → (∀ v ∈ vs, v.tmin ≤ v.tmax) →
      ∀ v ∈ vs, m ≤ v.tmin := by
  induction vs with
  | nil => intro m M _ _ v hv; exact absurd hv (List.not_mem_nil v)
  | cons u rest ih =>
      intro m M hc hw v hv
      rcases List.mem_cons.mp hv with hv | hv
      · subst hv; exact le_of_eq hc.1.symm
      · calc m = u.tmin := hc.1.symm
          _ ≤ u.tmax := hw u (List.mem_cons_self u rest)
          _ ≤ v.tmin := ih hc.2 (fun w hw' => hw w (List.mem_cons_of_mem u hw')) v hv

theorem visit_seq_chain (ray : Ray3) (nodes : List KDNode) :
    ∀ (fuel id : ℕ) (m M : ℚ) (vs : List Visit), m ≤ M →
      visit_seq ray nodes fuel id m M = some vs →
      Chain m vs M ∧ ∀ v ∈ vs, v.tmin ≤ v.tmax := by
  intro fuel
  induction fuel with
  | zero => intro id m M vs _ h; simp [visit_seq] at h
  | succ fuel ih =>
      intro id m M vs hmM h
      rw [visit_seq] at h
      cases hn : nodes.get? id with
      | none => rw [hn] at h; simp at h
      | some node =>
          rw [hn] at h
          cases node with
          | leaf items =>
              simp only [Option.some.injEq] at h
              subst h
              refine ⟨⟨rfl, rfl⟩, ?_⟩
              intro v hv
              rcases List.mem_singleton.mp hv with rfl
              exact hmM
          | branch axis split upper_id =>
              simp only at h
              by_cases hd : ray.direction.get axis = 0
              · rw [if_pos hd] at h
                by_cases ho : ray.origin.get axis < split
                · rw [if_pos ho] at h; exact ih _ m M vs hmM h
                · rw [if_neg ho] at h; exact ih _ m M vs hmM h
              · rw [if_neg hd] at h
                by_cases h1 : M < (split - ray.origin.get axis) / ray.direction.get axis ∨
                    (split - ray.origin.get axis) / ray.direction.get axis ≤ 0
                · rw [if_pos h1] at h; exact ih _ m M vs hmM h
                · rw [if_neg h1] at h
                  by_cases h2 : (split - ray.origin.get axis) / ray.direction.get axis < m
                  · rw [if_pos h2] at h; exact ih _ m M vs hmM h
                  · rw [if_neg h2] at h
                    push_neg at h1 h2
                    cases hnear : visit_seq ray nodes fuel
                        (if ray.origin.get axis < split ∨
                            ray.origin.get axis = split ∧ ray.direction.get axis < 0
                         then id + 1 else upper_id) m
                        ((split - ray.origin.get axis) / ray.direction.get axis) with
                    | none => rw [hnear] at h; simp at h
                    | some near_visits =>
                        rw [hnear] at h
                        cases hfar : visit_seq ray nodes fuel
                            (if ray.origin.get axis < split ∨
                                ray.origin.get axis = split ∧ ray.direction.get axis < 0
                             then upper_id else id + 1)
                            ((split - ray.origin.get axis) / ray.direction.get axis) M with
                        | none => rw [hfar] at h; simp at h
                        | some far_visits =>
                            rw [hfar] at h
                            simp only [Option.some.injEq] at h
                            subst h
                            obtain ⟨hc1, hw1⟩ := ih _ m _ near_visits h2 hnear
                            obtain ⟨hc2, hw2⟩ := ih _ _ M far_visits h1.1 hfar
                            refine ⟨chain_append hc1 hc2, ?_⟩
                            intro v hv
                            rcases List.mem_append.mp hv with hv | hv
                            · exact hw1 v hv
                            · exact hw2 v hv

theorem hit_node_eq_find (H : ℕ → ℚ → Bool) (ray : Ray3) (nodes : List KDNode) :
    ∀ (fuel id : ℕ) (m M : ℚ) (vs : List Visit),
      visit_seq ray nodes fuel id m M = some vs →
      hit_node H ray nodes fuel id m M =
        some (vs.find? (fun v => H v.id v.tmax)).isSome := by
  intro fuel
  induction fuel with
  | zero => intro id m M vs h; simp [visit_seq] at h
  | succ fuel ih =>
      intro id m M vs h
      rw [visit_seq] at h
      rw [hit_node]
      cases hn : nodes.get? id with
      | none => rw [hn] at h; simp at h
      | some node =>
          rw [hn] at h
          cases node with
          | leaf items =>
              simp only [Option.some.injEq] at h
              subst h
              simp [List.find?]
              cases hH : H id M <;> simp [hH]
          | branch axis split upper_id =>
              simp only at h
              simp only
              by_cases hd : ray.direction.get axis = 0
              · rw [if_pos hd] at h; rw [if_pos hd]
                by_cases ho : ray.origin.get axis < split
                · rw [if_pos ho] at h; rw [if_pos ho]; exact ih _ m M vs h
                · rw [if_neg ho] at h; rw [if_neg ho]; exact ih _ m M vs h
              · rw [if_neg hd] at h; rw [if_neg hd]
                by_cases h1 : M < (split - ray.origin.get axis) / ray.direction.get axis ∨
                    (split - ray.origin.get axis) / ray.direction.get axis ≤ 0
                · rw [if_pos h1] at h; rw [if_pos h1]; exact ih _ m M vs h
                · rw [if_neg h1] at h; rw [if_neg h1]
                  by_cases h2 : (split - ray.origin.get axis) / ray.direction.get axis < m
                  · rw [if_pos h2] at h; rw [if_pos h2]; exact ih _ m M vs h
                  · rw [if_neg h2] at h; rw [if_neg h2]
                    cases hnear : visit_seq ray nodes fuel
                        (if ray.origin.get axis < split ∨
                            ray.origin.get axis = split ∧ ray.direction.get axis < 0
                         then id + 1 else upper_id) m
                        ((split - ray.origin.get axis) / ray.direction.get axis) with
                    | none => rw [hnear] at h; simp at h
                    | some near_visits =>
                        rw [hnear] at h
                        cases hfar : visit_seq ray nodes fuel
                            (if ray.origin.get axis < split ∨
                                ray.origin.get axis = split ∧ ray.direction.get axis < 0
                             then upper_id else id + 1)
                            ((split - ray.origin.get axis) / ray.direction.get axis) M with
                        | none => rw [hfar] at h; simp at h
                        | some far_visits =>
                            rw [hfar] at h
                            simp only [Option.some.injEq] at h
                            subst h
                            rw [ih _ m _ near_visits hnear]
                            rw [List.find?_append]
                            cases hfind : near_visits.find? (fun v => H v.id v.tmax) with
                            | some v => simp
                            | none =>
                                simp only [Option.isSome_none]
                                rw [ih _ _ M far_visits hfar]
                                simp [Option.or]

theorem full_intersection_le {box : BBox} {ray : Ray3} {m M : ℚ}
    (h : full_intersection box ray = some (m, M)) : m ≤ M := by
  unfold full_intersection at h
  cases hs : slab ray.origin.z ray.direction.z box.lower.z box.upper.z
      (slab ray.origin.y ray.direction.y box.lower.y box.upper.y
        (slab ray.origin.x ray.direction.x box.lower.x box.upper.x
          (some (none, none)))) with
  | none => rw [hs] at h; simp at h
  | some fb =>
      rw [hs] at h
      obtain ⟨front, back⟩ := fb
      cases front with
      | none => simp at h
      | some f =>
          cases back with
          | none => simp at h
          | some b =>
              simp only at h
              by_cases hc : f > b ∨ b < 0
              · rw [if_pos hc] at h; simp at h
              · rw [if_neg hc] at h
                push_neg at hc
                simp only [Option.some.injEq, Prod.mk.injEq] at h
                obtain ⟨rfl, rfl⟩ := h
                exact hc.1

theorem find_first_nearest (L : ℕ → List ℤ) (dist : ℤ → ℚ) (H : ℕ → ℚ → Bool)
    (tstar : ℚ)
    (hH : ∀ id M', H id M' = true ↔ ∃ i ∈ L id, 0 ≤ dist i ∧ dist i ≤ M') :
    ∀ (vs : List Visit) (m M : ℚ), Chain m vs M →
      (∀ v ∈ vs, v.tmin ≤ v.tmax) →
      (∀ v ∈ vs, ∀ i ∈ L v.id, tstar ≤ dist i) →
      (∃ v ∈ vs, (∃ i ∈ L v.id, dist i = tstar) ∧
        v.tmin ≤ tstar ∧ tstar ≤ v.tmax ∧ 0 ≤ tstar) →
      ∃ v', vs.find? (fun v => H v.id v.tmax) = some v' ∧
        ∃ i ∈ L v'.id, dist i = tstar := by
  intro vs
  induction vs with
  | nil =>
      rintro m M _ _ _ ⟨v, hv, -⟩
      exact absurd hv (List.not_mem_nil v)
  | cons v rest ih =>
      rintro m M hchain hwidth hmin ⟨w, hw, ⟨j, hj, hjd⟩, hw1, hw2, hw0⟩
      by_cases hv : H v.id v.tmax = true
      · refine ⟨v, List.find?_cons_of_pos _ hv, ?_⟩
        rcases List.mem_cons.mp hw with hwv | hwrest
        · subst hwv; exact ⟨j, hj, hjd⟩
        · obtain ⟨i, hi, hi0, hile⟩ := (hH v.id v.tmax).mp hv
          have hvw : v.tmax ≤ w.tmin :=
            chain_le hchain.2
              (fun u hu => hwidth u (List.mem_cons_of_mem v hu)) w hwrest
          have hup : dist i ≤ tstar := le_trans hile (le_trans hvw hw1)
          have hdown : tstar ≤ dist i := hmin v (List.mem_cons_self v rest) i hi
          exact ⟨i, hi, le_antisymm hup hdown⟩
      · rcases List.mem_cons.mp hw with hwv | hwrest
        · exfalso
          apply hv
          rw [hH]
          subst hwv
          exact ⟨j, hj, hjd ▸ hw0, hjd ▸ hw2⟩
        · obtain ⟨v', hfind, hwit⟩ :=
            ih v.tmax M hchain.2
              (fun u hu => hwidth u (List.mem_cons_of_mem v hu))
              (fun u hu i hi => hmin u (List.mem_cons_of_mem v hu) i hi)
              ⟨w, hwrest, ⟨j, hj, hjd⟩, hw1, hw2, hw0⟩
          refine ⟨v', ?_, hwit⟩
          rw [List.find?_cons_of_neg _ (by simpa using hv)]
          exact hfind

theorem edge_compare_le_value {e x : Edge} (h : edge_compare e x ≤ 0) :
    e.value ≤ x.value := by
  unfold edge_compare at h
  split_ifs at h with h1 h2 h3
  · exact le_of_eq h1
  · exact le_of_eq h1
  · exact le_of_lt h3
  · norm_num at h

theorem edge_compare_gt_value {e x : Edge} (h : ¬ edge_compare e x ≤ 0) :
    x.value ≤ e.value := by
  unfold edge_compare at h
  split_ifs at h with h1 h2 h3
  · exact le_of_eq h1.symm
  · exact le_of_eq h1.symm
  · norm_num at h
  · exact le_of_lt (lt_of_le_of_ne (not_lt.mp h3) (Ne.symm h1))

theorem mem_insert_edge {x e : Edge} :
    ∀ {l : List Edge}, x ∈ insert_edge e l → x = e ∨ x ∈ l := by
  intro l
  induction l with
  | nil => intro h; simp [insert_edge] at h; exact Or.inl h
  | cons y ys ih =>
      intro h
      rw [insert_edge] at h
      split_ifs at h with hc
      · rcases List.mem_cons.mp h with h | h
        · exact Or.inl h
        · exact Or.inr h
      · rcases List.mem_cons.mp h with h | h
        · exact Or.inr (h ▸ List.mem_cons_self y ys)
        · rcases ih h with h | h
          · exact Or.inl h
          · exact Or.inr (List.mem_cons_of_mem y h)

theorem pairwise_value_insert_edge {e : Edge} :
    ∀ {l : List Edge},
      l.Pairwise (fun a b : Edge => a.value ≤ b.value) →
      (insert_edge e l).Pairwise (fun a b : Edge => a.value ≤ b.value) := by
  intro l
  induction l with
  | nil => intro _; simp [insert_edge]
  | cons x xs ih =>
      intro h
      rw [insert_edge]
      rcases List.pairwise_cons.mp h with ⟨hx, hxs⟩
      split_ifs with hc
      · refine List.pairwise_cons.mpr ⟨?_, h⟩
        intro b hb
        rcases List.mem_cons.mp hb with hb | hb
        · exact hb ▸ edge_compare_le_value hc
        · exact le_trans (edge_compare_le_value hc) (hx b hb)
      · refine List.pairwise_cons.mpr ⟨?_, ih hxs⟩
        intro b hb
        rcases mem_insert_edge hb with hb | hb
        · exact hb ▸ edge_compare_gt_value hc
        · exact hx b hb

theorem pairwise_value_sort_edges (edges : List Edge) :
    (sort_edges edges).Pairwise (fun a b : Edge => a.value ≤ b.value) := by
  induction edges with
  | nil => simp [sort_edges]
  | cons e es ih => exact pairwise_value_insert_edge ih

theorem decode_encode_node (n : KDNode) : decode_node (encode_node n) = some n := by
  cases n with
  | leaf items => rfl
  | branch axis split upper_id =>
      fin_cases axis <;> simp [encode_node, decode_node]

theorem decode_nodes_map (l : List KDNode) :
    decode_nodes (l.map encode_node) = some l := by
  induction l with
  | nil => rfl
  | cons n rest ih => simp [decode_nodes, decode_encode_node, ih]

theorem ConstantSF.good_init (value : ℚ) :
    ConstantSF.good value (ConstantSF.init value) := by
  exact ⟨rfl, by intro s h; simp [ConstantSF.init] at h⟩

theorem ConstantSF.good_step {value : ℚ} {c : ConstantSF}
    (h : ConstantSF.good value c) (lo hi : ℚ) (n : ℤ) :
    (c.sample_multiple lo hi n).1.samples = List.replicate n.toNat value ∧
    (c.sample_multiple lo hi n).1.fast_sample = false ∧
    ConstantSF.good value (c.sample_multiple lo hi n).2 := by
  obtain ⟨hval, hcache⟩ := h
  unfold ConstantSF.sample_multiple
  cases hc : c.cached_samples with
  | none =>
      subst hval
      refine ⟨by simp, by simp [new_sampledsf, SampledSF.construct], rfl, ?_⟩
      intro s hs
      simp only [Option.some.injEq] at hs
      subst hs
      simp [new_sampledsf, SampledSF.construct]
  | some cached =>
      by_cases hsh : cached.is_shaped lo hi n = true
      · obtain ⟨hsmp, hfs⟩ := hcache cached hc
        have hn : cached.num_samples = n := by
          have := hsh
          unfold SampledSF.is_shaped at this
          simp only [Bool.and_eq_true, decide_eq_true_eq] at this
          exact this.2
        dsimp only
        rw [if_pos hsh]
        exact ⟨by rw [hsmp, hn], hfs, ⟨hval, hcache⟩⟩
      · dsimp only
        rw [if_neg hsh]
        subst hval
        refine ⟨by simp, by simp [new_sampledsf, SampledSF.construct], rfl, ?_⟩
        intro s hs
        simp only [Option.some.injEq] at hs
        subst hs
        simp [new_sampledsf, SampledSF.construct]

theorem ConstantSF.good_run (value : ℚ) (calls : List (ℚ × ℚ × ℤ)) :
    ConstantSF.good value (ConstantSF.run value calls) := by
  suffices h : ∀ (cs : List (ℚ × ℚ × ℤ)) (c : ConstantSF), ConstantSF.good value c →
      ConstantSF.good value (cs.foldl
        (fun st call => (st.sample_multiple call.1 call.2.1 call.2.2).2) c) by
    exact h calls (ConstantSF.init value) (ConstantSF.good_init value)
  intro cs
  induction cs with
  | nil => intro c hc; exact hc
  | cons call rest ih =>
      intro c hc
      exact ih _ (ConstantSF.good_step hc call.1 call.2.1 call.2.2).2.2

/-- The automatic depth rule `⌈8 + 1.3·ln N⌉` of `KDTreeCore.__init__`
evaluates to `10` for three items (justifying the `max_depth` used by
`three_tree`). -/
theorem auto_max_depth_three : ⌈(8 : ℝ) + 1.3 * Real.log 3⌉ = 10 := by
  have hexp : (23 / 13 : ℝ) ≤ Real.exp (10 / 13) := by
    have := Real.add_one_le_exp (10 / 13 : ℝ)
    linarith
  have hsq : Real.exp (20 / 13) = Real.exp (10 / 13) * Real.exp (10 / 13) := by
    rw [← Real.exp_add]; norm_num
  have hup : Real.log 3 ≤ 20 / 13 := by
    rw [Real.log_le_iff_le_exp (by norm_num : (0 : ℝ) < 3), hsq]
    nlinarith [Real.exp_pos (10 / 13 : ℝ)]
  have hlo : 1 < Real.log 3 := by
    rw [Real.lt_log_iff_exp_lt (by norm_num : (0 : ℝ) < 3)]
    calc Real.exp 1 < 2.7182818286 := Real.exp_one_lt_d9
      _ < 3 := by norm_num
  rw [Int.ceil_eq_iff]
  constructor
  · push_cast; nlinarith
  · push_cast; nlinarith

/-- The automatic depth rule evaluates to `9` for two items (justifying the
`max_depth` used by `straddle_tree`). -/
theorem auto_max_depth_two : ⌈(8 : ℝ) + 1.3 * Real.log 2⌉ = 9 := by
  have hup : Real.log 2 < 0.6931471808 := Real.log_two_lt_d9
  have hlo : 0 < Real.log 2 := Real.log_pos (by norm_num)
  rw [Int.ceil_eq_iff]
  constructor
  · push_cast; nlinarith
  · push_cast; nlinarith

/-! ## Claims -/

/-- C5: for every input `(c1, ct, n1, n2)`, the reflectivity `r` and
transmission `t` computed by `Glass._fresnel` satisfy `r + t = 1` — the
source defines the transmission as the complement of the reflectivity, so the
lossless-dielectric energy balance holds identically. -/
theorem c5_fresnel_energy_conservation (ci ct n1 n2 : ℚ) :
    (Glass.fresnel ci ct n1 n2).1 + (Glass.fresnel ci ct n1 n2).2 = 1 := by
  unfold Glass.fresnel
  ring

/-- C7: restoring a kd-tree from its persisted state (`__setstate__` applied
to the output of `__getstate__`) reproduces the tree exactly — the same node
array (order, node types, split positions, branch upper-child indices, leaf
item-id lists), the same bounds and the same build settings — without
re-running the builder, so hit and contains traversal behave identically
modulo subclass hooks. -/
theorem c7_serialisation_roundtrip (t : KDTreeState) :
    kdtree_setstate (kdtree_getstate t) = some t := by
  unfold kdtree_getstate kdtree_setstate
  rw [decode_nodes_map]
  simp

/-- C9: the edge comparator `_edge_compare` is not a consistent strict
ordering: it never returns `0`, and on two coincident edges of the same kind
its result depends only on the second argument, so both argument orders
return the same nonzero value — `-1` for two equal-valued upper edges and
`+1` for two equal-valued lower edges — violating antisymmetry. -/
theorem c9_edge_compare_not_antisymmetric :
    (∀ e1 e2 : Edge, edge_compare e1 e2 ≠ 0) ∧
    (∀ a b : Edge, a.value = b.value →
      a.is_upper_edge = true → b.is_upper_edge = true →
      edge_compare a b = -1 ∧ edge_compare b a = -1) ∧
    (∀ a b : Edge, a.value = b.value →
      a.is_upper_edge = false → b.is_upper_edge = false →
      edge_compare a b = 1 ∧ edge_compare b a = 1) := by
  refine ⟨?_, ?_, ?_⟩
  · intro e1 e2
    unfold edge_compare
    split_ifs <;> norm_num
  · intro a b hv ha hb
    unfold edge_compare
    simp [hv, ha, hb]
  · intro a b hv ha hb
    unfold edge_compare
    simp [hv, ha, hb]

/-- Witness for C9 at concrete edges: two coincident upper edges compare
`-1` in both orders, two coincident lower edges compare `+1` in both orders,
and a generic pair never compares `0`. -/
theorem c9_witness :
    (edge_compare ⟨true, 3⟩ ⟨true, 3⟩ = -1 ∧ edge_compare ⟨true, 3⟩ ⟨true, 3⟩ = -1) ∧
    (edge_compare ⟨false, 3⟩ ⟨false, 3⟩ = 1 ∧ edge_compare ⟨false, 3⟩ ⟨false, 3⟩ = 1) ∧
    edge_compare ⟨false, 3⟩ ⟨true, 4⟩ ≠ 0 :=
  ⟨c9_edge_compare_not_antisymmetric.2.1 ⟨true, 3⟩ ⟨true, 3⟩ rfl rfl rfl,
   c9_edge_compare_not_antisymmetric.2.2 ⟨false, 3⟩ ⟨false, 3⟩ rfl rfl rfl,
   c9_edge_compare_not_antisymmetric.1 ⟨false, 3⟩ ⟨true, 4⟩⟩

/-- C2 counterexample: on the coincident pair at `x = 5` the sorted edge
array of `_get_edges` places the lower edge *before* the upper edge, and
`_edge_compare` on `(lower, upper)` at equal values returns `-1`
(lower sorts first) — the claim asserts the upper edge is encountered first
on ties (a lower edge sorting *after* a coincident upper edge), which is
false.  (On this input the comparator is a strict total order, so any
conforming `qsort` produces exactly this arrangement.) -/
theorem c2_counterexample :
    get_edges coincident_items 0 =
      [⟨false, 1⟩, ⟨false, 5⟩, ⟨true, 5⟩, ⟨true, 9⟩] ∧
    edge_compare ⟨false, 5⟩ ⟨true, 5⟩ = -1 ∧
    ¬ edge_compare ⟨false, 5⟩ ⟨true, 5⟩ = 1 := by
  refine ⟨by decide, by decide, by decide⟩

/-- C2 (amended): the candidate-edge array produced by `_get_edges` is
sorted by value, and on value ties a *lower* edge is encountered before a
coincident upper edge — `_edge_compare` orders a lower edge strictly before
an upper edge of equal value (`-1` with the lower edge first, `+1` with the
upper edge first). -/
theorem c2_edges_sorted_lower_first :
    (∀ (items : List Item) (axis : Fin 3),
      (get_edges items axis).Pairwise (fun a b : Edge => a.value ≤ b.value)) ∧
    (∀ value : ℚ,
      edge_compare ⟨false, value⟩ ⟨true, value⟩ = -1 ∧
      edge_compare ⟨true, value⟩ ⟨false, value⟩ = 1) := by
  constructor
  · intro items axis
    unfold get_edges
    exact pairwise_value_sort_edges _
  · intro value
    constructor <;> simp [edge_compare]

set_option maxRecDepth 40000 in
/-- C1: evaluation of the code at the failing input.  The three-box tree of
the spec's scenario is built as expected (root split `x = 2`, then `x = 3`),
and for a point outside the bounds `contains` returns the empty list — but
for the in-bounds point `(2.5, 0.5, 0.5)` the source's `_contains` evaluates
`self._contains_node(ROOT_NODE, point)` without returning it, so `contains`
yields `None` instead of the leaf-hook result `[1]` that the descent
produces. -/
theorem c1_contains_missing_return :
    three_tree.nodes =
      [KDNode.branch 0 2 2, KDNode.leaf [0], KDNode.branch 0 3 4,
       KDNode.leaf [1], KDNode.leaf [2]] ∧
    tree_contains three_hook three_tree ⟨5/2, 1/2, 1/2⟩ = none ∧
    contains_node three_hook three_tree.nodes 6 0 ⟨5/2, 1/2, 1/2⟩ = some [1] ∧
    tree_contains three_hook three_tree ⟨7, 1/2, 1/2⟩ = some [] := by
  refine ⟨by with_unfolding_all decide, by with_unfolding_all decide, by with_unfolding_all decide, by with_unfolding_all decide⟩

set_option maxRecDepth 40000 in
/-- C3 counterexample: in the built `straddle_tree` the ray visits the leaf
at node 1 — which contains only item 0, whose intersection lies at `t = 10` —
*before* the leaf at node 3 containing item 1 at the nearest distance
`t₁ = 6`, and `_hit_leaf` (a hook reporting exactly the hits within range,
satisfying the claim's assumption) is invoked on both: the invocation list is
`[node 1 visit, node 3 visit]`.  So `hit_leaf` is invoked on a leaf
containing only items at distances greater than `t₁` before the leaf holding
the item at `t₁`, contrary to the claim's ordering statement. -/
theorem c3_counterexample :
    straddle_tree.nodes =
      [KDNode.branch 0 4 2, KDNode.leaf [0], KDNode.branch 0 6 4,
       KDNode.leaf [0, 1], KDNode.leaf [0]] ∧
    full_intersection straddle_tree.bounds straddle_ray = some (1, 11) ∧
    visit_seq straddle_ray straddle_tree.nodes 6 0 1 11 = some straddle_visits ∧
    invoked_leaves straddle_hook straddle_visits = [⟨1, 1, 5⟩, ⟨3, 5, 7⟩] ∧
    leaf_ids straddle_tree.nodes 1 = [0] ∧
    ((leaf_ids straddle_tree.nodes 1).all fun i => decide (6 < straddle_dist i)) = true ∧
    leaf_ids straddle_tree.nodes 3 = [0, 1] ∧ straddle_dist 1 = 6 ∧
    straddle_dist 0 = 10 ∧
    tree_hit straddle_hook straddle_tree straddle_ray = some true := by
  refine ⟨by with_unfolding_all decide, by with_unfolding_all decide, by with_unfolding_all decide, by with_unfolding_all decide, by with_unfolding_all decide,
    by with_unfolding_all decide, by with_unfolding_all decide, by with_unfolding_all decide, by with_unfolding_all decide, by with_unfolding_all decide⟩

/-- C3 (amended): for a kd-tree node array and a ray whose bounds
intersection yields the range `[m, M]` with leaf-visit sequence `vs`,
if the `_hit_leaf` hook reports a hit exactly when some item of the leaf
intersects at a distance within `[0, max_range]`, and the nearest
intersection distance `tstar` (minimal over all items of all visited leaves,
non-negative) is realised by an item of some visited leaf within that leaf's
visit interval, then the traversal reports a hit, it stops at the *first
reporting* leaf, and that leaf contains an item at the nearest distance
`tstar`.  (A leaf containing only farther items may still be *invoked*
earlier — see the counterexample — but such a leaf never reports.) -/
theorem c3_first_reporting_leaf_nearest
    (t : KDTreeState) (ray : Ray3) (H : ℕ → ℚ → Bool) (dist : ℤ → ℚ)
    (tstar m M : ℚ) (vs : List Visit)
    (hfull : full_intersection t.bounds ray = some (m, M))
    (hvs : visit_seq ray t.nodes (t.nodes.length + 1) 0 m M = some vs)
    (hH : ∀ id M', H id M' = true ↔
      ∃ i ∈ leaf_ids t.nodes id, 0 ≤ dist i ∧ dist i ≤ M')
    (hmin : ∀ v ∈ vs, ∀ i ∈ leaf_ids t.nodes v.id, tstar ≤ dist i)
    (hcov : ∃ v ∈ vs, (∃ i ∈ leaf_ids t.nodes v.id, dist i = tstar) ∧
      v.tmin ≤ tstar ∧ tstar ≤ v.tmax ∧ 0 ≤ tstar) :
    tree_hit H t ray = some true ∧
    ∃ v', vs.find? (fun v => H v.id v.tmax) = some v' ∧
      ∃ i ∈ leaf_ids t.nodes v'.id, dist i = tstar := by
  have hmM := full_intersection_le hfull
  obtain ⟨hchain, hwidth⟩ := visit_seq_chain ray t.nodes _ 0 m M vs hmM hvs
  obtain ⟨v', hfind, hwit⟩ :=
    find_first_nearest (leaf_ids t.nodes) dist H tstar hH vs m M hchain hwidth hmin hcov
  refine ⟨?_, v', hfind, hwit⟩
  unfold tree_hit
  rw [hfull]
  dsimp only
  rw [hit_node_eq_find H ray t.nodes _ 0 m M vs hvs]
  rw [hfind]
  rfl

set_option maxRecDepth 40000 in
/-- Witness for the amended C3 on the straddle tree: the hypotheses hold
concretely with nearest distance `tstar = 6`, the traversal reports a hit,
and the first reporting leaf (node 3, interval `[5, 7]`) contains item 1 at
distance `6`. -/
theorem c3_witness :
    full_intersection straddle_tree.bounds straddle_ray = some (1, 11) ∧
    visit_seq straddle_ray straddle_tree.nodes (straddle_tree.nodes.length + 1) 0 1 11 =
      some straddle_visits ∧
    (tree_hit straddle_hook straddle_tree straddle_ray = some true ∧
     ∃ v', straddle_visits.find? (fun v => straddle_hook v.id v.tmax) = some v' ∧
       ∃ i ∈ leaf_ids straddle_tree.nodes v'.id, straddle_dist i = 6) :=
  ⟨by with_unfolding_all decide, by with_unfolding_all decide,
   c3_first_reporting_leaf_nearest straddle_tree straddle_ray straddle_hook
     straddle_dist 6 1 11 straddle_visits (by with_unfolding_all decide) (by with_unfolding_all decide)
     (by
       intro id M'
       simp [straddle_hook, List.any_eq_true, decide_eq_true_eq])
     (by with_unfolding_all decide) (by with_unfolding_all decide)⟩

/-- C4: whenever `c²_t ≤ 0` (total internal reflection),
`Glass.evaluate_surface` spawns exactly one daughter ray — the reflected ray
with direction `I + 2·c₁·N` transformed to world space, originating at
`inside_point` when exiting and at `outside_point` otherwise (transformed to
world space) — no transmitted ray is spawned, and the returned spectrum is
exactly the unscaled trace of that single reflected ray (effective
reflectance `r = 1`). -/
theorem c4_total_internal_reflection
    (env : GlassEnv) (cutoff : ℚ) (ray_direction : Vec3)
    (refraction_wavelength : ℚ) (exiting : Bool)
    (inside_point outside_point normal : Vec3)
    (h : glass_c2s env refraction_wavelength exiting ray_direction normal ≤ 0) :
    Glass.evaluate_surface env cutoff ray_direction refraction_wavelength exiting
        inside_point outside_point normal =
      (env.trace (glass_tir_origin env exiting inside_point outside_point)
        (env.transform_to_world (glass_reflected env ray_direction normal)),
       [(glass_tir_origin env exiting inside_point outside_point,
         env.transform_to_world (glass_reflected env ray_direction normal))]) := by
  unfold Glass.evaluate_surface
  dsimp only
  rw [if_pos h]
  rfl

/-- Witness for C4: an exiting ray at incidence beyond the critical angle of
an `n = 3/2` medium (`c₁ = 3/5`, `c²_t = -11/25 ≤ 0`); the single spawned
ray and the returned spectrum are the reflected trace. -/
theorem c4_witness :
    glass_c2s tir_env 500 true ⟨4/5, 0, -3/5⟩ ⟨0, 0, 1⟩ ≤ 0 ∧
    Glass.evaluate_surface tir_env (1/1000000) ⟨4/5, 0, -3/5⟩ 500 true
        ⟨1, 2, 3⟩ ⟨4, 5, 6⟩ ⟨0, 0, 1⟩ =
      (tir_env.trace (glass_tir_origin tir_env true ⟨1, 2, 3⟩ ⟨4, 5, 6⟩)
        (tir_env.transform_to_world (glass_reflected tir_env ⟨4/5, 0, -3/5⟩ ⟨0, 0, 1⟩)),
       [(glass_tir_origin tir_env true ⟨1, 2, 3⟩ ⟨4, 5, 6⟩,
         tir_env.transform_to_world (glass_reflected tir_env ⟨4/5, 0, -3/5⟩ ⟨0, 0, 1⟩))]) :=
  ⟨by with_unfolding_all decide,
   c4_total_internal_reflection tir_env (1/1000000) ⟨4/5, 0, -3/5⟩ 500 true
     ⟨1, 2, 3⟩ ⟨4, 5, 6⟩ ⟨0, 0, 1⟩ (by with_unfolding_all decide)⟩

/-- C6: evaluation of the constructors at the claimed error conditions.
`SampledSF` construction with `num_samples < 1` *does* fail, but through
`raise` applied to a plain string — a `TypeError` in Python 3, not the
claimed `ValueError`; every other listed condition raises the claimed
`ValueError`. -/
theorem c6_invalid_argument_errors :
    SampledSF.init 100 200 0 false =
      .error (.typeError "exceptions must derive from BaseException") ∧
    (∀ msg, SampledSF.init 100 200 0 false ≠ .error (.valueError msg)) ∧
    SampledSF.init 0 200 5 false =
      .error (.valueError "Wavelength cannot be less than or equal to zero.") ∧
    SampledSF.init 100 (-1) 5 false =
      .error (.valueError "Wavelength cannot be less than or equal to zero.") ∧
    SampledSF.init 200 100 5 false =
      .error (.valueError "Minimum wavelength cannot be greater or equal to the maximum wavelength.") ∧
    InterpolatedSF.init ⟨[2, 2], [1, 2, 3, 4]⟩ ⟨[2], [1, 2]⟩ false =
      .error (.valueError "Wavelength array must be 1D.") ∧
    InterpolatedSF.init ⟨[3], [1, 2, 3]⟩ ⟨[2], [1, 2]⟩ false =
      .error (.valueError "Wavelength and sample arrays must be the same length.") := by
  have h0 : SampledSF.init 100 200 0 false =
      .error (.typeError "exceptions must derive from BaseException") := by
    with_unfolding_all rfl
  refine ⟨h0, ?_, by with_unfolding_all rfl, by with_unfolding_all rfl,
    by with_unfolding_all rfl, by with_unfolding_all rfl, by with_unfolding_all rfl⟩
  intro msg
  rw [h0]
  simp

/-- C8: for every `ConstantSF(v)` and request `(λ_lo, λ_hi, n)` with
`n ≥ 1` and `0 < λ_lo < λ_hi`, issued after an arbitrary sequence of earlier
`sample_multiple` calls (so both the freshly generated and the cached path
are covered), every bin of the returned `SampledSF` equals `v`: the sample
array is exactly `n` copies of `v`. -/
theorem c8_constant_sample_multiple_bins
    (value : ℚ) (prior : List (ℚ × ℚ × ℤ)) (lo hi : ℚ) (n : ℤ)
    (_h1 : 1 ≤ n) (_h2 : 0 < lo) (_h3 : lo < hi) :
    ((ConstantSF.run value prior).sample_multiple lo hi n).1.samples =
      List.replicate n.toNat value :=
  (ConstantSF.good_step (ConstantSF.good_run value prior) lo hi n).1

/-- Witness for C8: `ConstantSF(7)` sampled over `[500, 600]` with 10 bins
after an identical earlier request, so the result comes from the cache. -/
theorem c8_witness :
    (1 : ℤ) ≤ 10 ∧ (0 : ℚ) < 500 ∧ (500 : ℚ) < 600 ∧
    ((ConstantSF.run 7 [(500, 600, 10)]).sample_multiple 500 600 10).1.samples =
      List.replicate (10 : ℤ).toNat 7 :=
  ⟨by decide, by norm_num, by norm_num,
   c8_constant_sample_multiple_bins 7 [(500, 600, 10)] 500 600 10 (by decide)
     (by norm_num) (by norm_num)⟩

/-- C10: every `SampledSF` produced by a `sample_multiple` call has
`fast_sample = False` regardless of the source function's flag — for
`InterpolatedSF` always, for `SampledSF` whenever it actually re-samples
(the single exception being the `is_shaped` early return of `self`), and for
`ConstantSF` after any call history.  The source's flag only selects how the
bin values are computed; the returned object is built by `new_sampledsf`,
which hard-codes `fast_sample = False`. -/
theorem c10_sample_multiple_fast_sample :
    (∀ (u : MathUtility) (f : InterpolatedSF) (lo hi : ℚ) (n : ℤ) (r : SampledSF),
      InterpolatedSF.sample_multiple u f lo hi n = .ok r → r.fast_sample = false) ∧
    (∀ (u : MathUtility) (s : SampledSF) (lo hi : ℚ) (n : ℤ) (r : SampledSF),
      SampledSF.sample_multiple u s lo hi n = .ok r →
        (s.is_shaped lo hi n = true → r = s) ∧
        (s.is_shaped lo hi n = false → r.fast_sample = false)) ∧
    (∀ (value : ℚ) (prior : List (ℚ × ℚ × ℤ)) (lo hi : ℚ) (n : ℤ),
      ((ConstantSF.run value prior).sample_multiple lo hi n).1.fast_sample = false) := by
  refine ⟨?_, ?_, ?_⟩
  · intro u f lo hi n r h
    unfold InterpolatedSF.sample_multiple at h
    by_cases hlen : f.samples.shape0 ≠ f.wavelengths.shape0
    · rw [if_pos hlen] at h
      simp at h
    · rw [if_neg hlen] at h
      dsimp only at h
      by_cases hfast : f.fast_sample = true
      · rw [if_pos hfast] at h
        injection h with h
        rw [← h]
        rfl
      · rw [if_neg hfast] at h
        injection h with h
        rw [← h]
        rfl
  · intro u s lo hi n r h
    unfold SampledSF.sample_multiple at h
    by_cases hlen : (s.samples.length : ℤ) ≠ s.num_samples
    · rw [if_pos hlen] at h
      simp at h
    · rw [if_neg hlen] at h
      by_cases hsh : s.is_shaped lo hi n = true
      · rw [if_pos hsh] at h
        injection h with h
        exact ⟨fun _ => h.symm, fun hfalse => absurd hsh (by simp [hfalse])⟩
      · rw [if_neg hsh] at h
        dsimp only at h
        by_cases hfast : s.fast_sample = true
        · rw [if_pos hfast] at h
          injection h with h
          exact ⟨fun htrue => absurd htrue hsh, fun _ => by rw [← h]; rfl⟩
        · rw [if_neg hfast] at h
          injection h with h
          exact ⟨fun htrue => absurd htrue hsh, fun _ => by rw [← h]; rfl⟩
  · intro value prior lo hi n
    exact (ConstantSF.good_step (ConstantSF.good_run value prior) lo hi n).2.1

/-- Witness for C10 at concrete inputs: an `InterpolatedSF` and a
`SampledSF` both carrying `fast_sample = True` produce re-sampled results
with `fast_sample = False`; the shaped request returns `self` unchanged; a
fresh `ConstantSF` produces `fast_sample = False`. -/
theorem c10_witness :
    (InterpolatedSF.sample_multiple zero_utility fast_interpolated 100 200 4 =
        .ok ⟨100, 200, 4, 25, false, [0, 0, 0, 0]⟩ ∧
      (⟨100, 200, 4, 25, false, [0, 0, 0, 0]⟩ : SampledSF).fast_sample = false) ∧
    (SampledSF.sample_multiple zero_utility fast_sampled 100 200 2 = .ok fast_sampled ∧
      fast_sampled.is_shaped 100 200 2 = true ∧ fast_sampled = fast_sampled) ∧
    (SampledSF.sample_multiple zero_utility fast_sampled 100 200 4 =
        .ok ⟨100, 200, 4, 25, false, [0, 0, 0, 0]⟩ ∧
      fast_sampled.is_shaped 100 200 4 = false ∧
      (⟨100, 200, 4, 25, false, [0, 0, 0, 0]⟩ : SampledSF).fast_sample = false) ∧
    ((ConstantSF.run 7 []).sample_multiple 500 600 10).1.fast_sample = false :=
  ⟨⟨by with_unfolding_all rfl,
    c10_sample_multiple_fast_sample.1 zero_utility fast_interpolated 100 200 4 _
      (by with_unfolding_all rfl)⟩,
   ⟨by with_unfolding_all rfl, by with_unfolding_all decide,
    (c10_sample_multiple_fast_sample.2.1 zero_utility fast_sampled 100 200 2 fast_sampled
      (by with_unfolding_all rfl)).1 (by with_unfolding_all decide)⟩,
   ⟨by with_unfolding_all rfl, by with_unfolding_all decide,
    (c10_sample_multiple_fast_sample.2.1 zero_utility fast_sampled 100 200 4 _
      (by with_unfolding_all rfl)).2 (by with_unfolding_all decide)⟩,
   c10_sample_multiple_fast_sample.2.2 7 [] 500 600 10⟩
